import Mathlib

/-!
Shallow embedding of `src/allocator.h` (namespace `chi`): the abstract
`Allocator<T>` capability, the exact-fit `StdAllocator<T>` and the amortized
`FutureAllocator<T>`.

Modelling conventions:
* `Size` (a 64-bit unsigned integer) is `Nat`; wrap-around is written with an
  explicit `% 2 ^ 64` exactly where the C++ arithmetic can underflow
  (`StdAllocator::_shrink`).
* The heap is folded into the allocator state: each successful `malloc` hands
  out a fresh block id (`nextId`), so pointer identity and "was a new block
  acquired" are observable.  Whether a given `malloc` succeeds is a `Bool`
  parameter of each operation (each operation performs at most one `malloc`).
* The contents of the owned block are the list `mem` of constructed elements
  in ascending index order; slots `[mem.length, cap)` are reserved but
  uninitialized and therefore not represented.
* Operations return a `StepResult`: an outcome (`ok`, `fail` for a thrown
  `AllocException`, `halted` for a debug-build contract abort), the resulting
  state (for `fail`, the state exactly as the partially executed C++ body
  leaves it), and the list of observable events (placement constructions,
  destructor calls, heap acquisitions and releases) in execution order.
* `CHI_ASSERT` is defined in `exception.h`, which is outside `src/`.
  Modelled from the spec: the contract-checking facility halts with a
  diagnostic in debug builds and is a no-op in optimized builds.  Its polarity
  is taken as "halt when the given condition holds": that is the only reading
  under which the guards written in `allocator.h` (`__ptr != 0 && __ptr != -1`
  in `allocate`, `__ptr == (T*)-1` in `free`) implement the spec's
  double-allocate and double-free checks, and the attached messages name the
  condition as the error case.
* The `float multiplier` of `FutureAllocator` is modelled as an exact rational
  `num / den` over `Nat`; the C++ float-to-`Size` conversion truncates toward
  zero, which for a nonnegative value is `Nat` floor division
  (`capOf num den n = num * n / den`).  Rounding error of the float product
  itself is not modelled; it is exact for the dyadic multipliers (1.5) and
  small counts appearing in the spec's scenarios.
* The four `allocate` overloads share one macro body differing only in the
  placement-`new` initializer; they are modelled by `stdAllocateWith` /
  `futureAllocateWith` taking the initializer as a function `Nat → T` of the
  slot index.  The default-construct overload fixes it to a constant default
  value `d` (the model of `T()`).
-/

namespace LibqiAlloc

variable {T : Type}

/-- Value of the `T* __ptr` field: the null pointer, the debug freed-marker
`(T*)-1`, or an owned heap block identified by the id `malloc` produced. -/
inductive PtrVal where
  | null
  | sentinel
  | block (id : Nat)
deriving DecidableEq

/-- Observable events of one allocator operation, in execution order:
placement construction of a value at a slot index, destructor call at a slot
index, acquisition of a fresh heap block, release of the current block. -/
inductive Event (T : Type) where
  | construct (idx : Nat) (val : T)
  | destruct (idx : Nat)
  | heapAlloc (id : Nat)
  | heapFree
deriving DecidableEq

/-- Outcome of one operation: normal return, thrown `AllocException`, or a
debug-build `CHI_ASSERT` halt. -/
inductive Out where
  | ok
  | fail
  | halted
deriving DecidableEq

/-- State of a `StdAllocator<T>` / `FutureAllocator<T>`: the fields `__ptr`,
`_count`, `_cap`, plus the constructed contents of the owned block (`mem`,
ascending slot order) and the fresh-block counter of the modelled heap. -/
structure AState (T : Type) where
  ptr : PtrVal
  count : Nat
  cap : Nat
  mem : List T
  nextId : Nat
deriving DecidableEq

/-- Result of one operation: outcome, resulting state, emitted events. -/
structure StepResult (T : Type) where
  out : Out
  state : AState T
  events : List (Event T)
deriving DecidableEq

/-- `StdAllocator() : __ptr(0), _count(0), _cap(0)`. -/
def stdInit (T : Type) : AState T :=
  ⟨PtrVal.null, 0, 0, [], 1⟩

/-- `StdAllocator::allocate` (the `ONE_ALLOCATE` macro body, lines 63-78):
`CHI_ASSERT` that the buffer is currently allocated (halt on double
allocate in debug builds); if `count == 0` set `__ptr = 0`; otherwise
`malloc`, throw `AllocException` on failure, then placement-construct slots
`0..count-1` with the overload's initializer; finally `_count = count`.
Note that `_cap` is never written. -/
def stdAllocateWith (debug mallocOk : Bool) (s : AState T) (n : Nat)
    (f : Nat → T) : StepResult T :=
  if debug ∧ s.ptr ≠ PtrVal.null ∧ s.ptr ≠ PtrVal.sentinel then
    ⟨Out.halted, s, []⟩
  else if n = 0 then
    ⟨Out.ok, { s with ptr := PtrVal.null, count := 0, mem := [] }, []⟩
  else if mallocOk then
    ⟨Out.ok,
     { s with ptr := PtrVal.block s.nextId, nextId := s.nextId + 1,
              count := n, mem := (List.range n).map f },
     Event.heapAlloc s.nextId ::
       (List.range n).map (fun i => Event.construct i (f i))⟩
  else ⟨Out.fail, s, []⟩

/-- `StdAllocator::allocate( Size count = 0 )`: default-construct overload;
`d` models the default-constructed value `T()`. -/
def stdAllocate (debug mallocOk : Bool) (s : AState T) (n : Nat)
    (d : T) : StepResult T :=
  stdAllocateWith debug mallocOk s n (fun _ => d)

/-- `StdAllocator::_grow` (lines 108-137): unconditionally `malloc` a block of
`_count + increment` slots (throw on failure, state untouched); copy-construct
the old elements into it at slots `0.._count-1` ascending; destruct the old
elements at slots `0.._count-1` ascending; `free` the old block; set `__ptr`
and `_cap = new_size`; default-construct slots `_count..new_size-1`
ascending, updating `_count` along the way. -/
def stdGrow (mallocOk : Bool) (d : T) (s : AState T) (increment : Nat) :
    StepResult T :=
  let new_size := s.count + increment
  if mallocOk then
    let old := s.mem.take s.count
    ⟨Out.ok,
     { s with ptr := PtrVal.block s.nextId, nextId := s.nextId + 1,
              count := new_size, cap := new_size,
              mem := old ++ List.replicate increment d },
     (Event.heapAlloc s.nextId ::
        old.enum.map (fun p => Event.construct p.1 p.2))
       ++ (List.range s.count).map Event.destruct
       ++ [Event.heapFree]
       ++ (List.range increment).map
            (fun i => Event.construct (s.count + i) d)⟩
  else ⟨Out.fail, s, []⟩

/-- `StdAllocator::_shrink` (lines 139-146): `new_count = _count - decrement`
in 64-bit unsigned arithmetic; then destruct slots `_count-1` down to
`new_count` while `new_count < _count`.  When `decrement > _count` the
subtraction wraps, the loop condition is false at once, and the call is
silently a no-op (there is no `CHI_ASSERT` here). -/
def stdShrink (s : AState T) (decrement : Nat) : StepResult T :=
  let new_count := (s.count + 2 ^ 64 - decrement) % 2 ^ 64
  if new_count < s.count then
    ⟨Out.ok,
     { s with count := new_count, mem := s.mem.take new_count },
     (List.range (s.count - new_count)).map
       (fun i => Event.destruct (s.count - 1 - i))⟩
  else ⟨Out.ok, s, []⟩

/-- `StdAllocator::free` (lines 96-104): `CHI_ASSERT` halt in debug builds
when `__ptr` is the freed sentinel (double free); otherwise `destruct()`
(destructor calls at slots `0.._count-1` ascending, lines 90-94), release the
block, and in debug builds set `__ptr = (T*)-1`.  `_count` and `_cap` are not
written. -/
def stdFree (debug : Bool) (s : AState T) : StepResult T :=
  if debug ∧ s.ptr = PtrVal.sentinel then ⟨Out.halted, s, []⟩
  else
    ⟨Out.ok,
     { s with mem := [], ptr := if debug then PtrVal.sentinel else s.ptr },
     (List.range s.count).map Event.destruct ++ [Event.heapFree]⟩

/-- `Allocator::resize` (lines 37-42) dispatching to the exact-fit strategy:
grow by `c - count()` when `c > count()`, shrink by `count() - c` when
`c < count()`, otherwise fall through doing nothing. -/
def stdResize (mallocOk : Bool) (d : T) (s : AState T) (c : Nat) :
    StepResult T :=
  if c > s.count then stdGrow mallocOk d s (c - s.count)
  else if c < s.count then stdShrink s (s.count - c)
  else ⟨Out.ok, s, []⟩

/-- `(Size)(multiplier * n)` for `multiplier = num / den`: the C++
float-to-unsigned conversion truncates toward zero, i.e. floor, which on
exact rationals is `Nat` floor division. -/
def capOf (num den n : Nat) : Nat :=
  num * n / den

/-- `FutureAllocator::FutureAllocator` (lines 157-159):
`CHI_ASSERT( multiplier < 1.0, ... )` — in debug builds the constructor halts
exactly when the multiplier is strictly less than 1 (`num < den`); a
multiplier equal to 1.0 passes the check. -/
def futureInit (debug : Bool) (num den : Nat) : Out :=
  if debug ∧ num < den then Out.halted else Out.ok

/-- `FutureAllocator::allocate` (macro body, lines 161-174): first
`_cap = multiplier * count` (written even on the failure path), then if
`count == 0` set `__ptr = 0`, otherwise `malloc(_cap * sizeof(T))`, throw
`AllocException` on failure, and placement-construct slots `0..count-1`;
finally `_count = count`.  There is no `CHI_ASSERT` in this overload set. -/
def futureAllocateWith (mallocOk : Bool) (num den : Nat) (s : AState T)
    (n : Nat) (f : Nat → T) : StepResult T :=
  let cap' := capOf num den n
  if n = 0 then
    ⟨Out.ok, { s with cap := cap', ptr := PtrVal.null, count := 0, mem := [] },
     []⟩
  else if mallocOk then
    ⟨Out.ok,
     { s with cap := cap', ptr := PtrVal.block s.nextId,
              nextId := s.nextId + 1, count := n,
              mem := (List.range n).map f },
     Event.heapAlloc s.nextId ::
       (List.range n).map (fun i => Event.construct i (f i))⟩
  else ⟨Out.fail, { s with cap := cap' }, []⟩

/-- `FutureAllocator::_grow` (lines 182-214): with `new_size = _count +
increment`, reallocate only when `new_size > _cap`: `malloc` a block of
`multiplier * new_size` slots (throw on failure, state untouched),
copy-construct the live elements ascending, destruct the old ones ascending,
release the old block, update `__ptr` and `_cap`; in either case
default-construct slots `_count..new_size-1` ascending. -/
def futureGrow (mallocOk : Bool) (num den : Nat) (d : T) (s : AState T)
    (increment : Nat) : StepResult T :=
  let new_size := s.count + increment
  if new_size > s.cap then
    if mallocOk then
      let newCap := capOf num den new_size
      let old := s.mem.take s.count
      ⟨Out.ok,
       { s with ptr := PtrVal.block s.nextId, nextId := s.nextId + 1,
                count := new_size, cap := newCap,
                mem := old ++ List.replicate increment d },
       (Event.heapAlloc s.nextId ::
          old.enum.map (fun p => Event.construct p.1 p.2))
         ++ (List.range s.count).map Event.destruct
         ++ [Event.heapFree]
         ++ (List.range increment).map
              (fun i => Event.construct (s.count + i) d)⟩
    else ⟨Out.fail, s, []⟩
  else
    ⟨Out.ok,
     { s with count := new_size, mem := s.mem ++ List.replicate increment d },
     (List.range increment).map (fun i => Event.construct (s.count + i) d)⟩

/-- `Allocator::resize` dispatching to the amortized strategy (`_grow` is
overridden, `_shrink` is inherited from `StdAllocator`). -/
def futureResize (mallocOk : Bool) (num den : Nat) (d : T) (s : AState T)
    (c : Nat) : StepResult T :=
  if c > s.count then futureGrow mallocOk num den d s (c - s.count)
  else if c < s.count then stdShrink s (s.count - c)
  else ⟨Out.ok, s, []⟩

/-- Slot index of a placement-construction event, if any. -/
def constructIdx : Event T → Option Nat
  | Event.construct i _ => some i
  | _ => none

/-- Indices of the placement constructions of an event list, in order. -/
def constructIdxs (es : List (Event T)) : List Nat :=
  es.filterMap constructIdx

/-- Slot index of a destructor-call event, if any. -/
def destructIdx : Event T → Option Nat
  | Event.destruct i => some i
  | _ => none

/-- Indices of the destructor calls of an event list, in order. -/
def destructIdxs (es : List (Event T)) : List Nat :=
  es.filterMap destructIdx

/-- Whether an event is the acquisition of a fresh heap block. -/
def isHeapAlloc : Event T → Bool
  | Event.heapAlloc _ => true
  | _ => false

/-- Number of heap blocks acquired during an event list: the number of
reallocations the operation performed. -/
def heapAllocs (es : List (Event T)) : Nat :=
  es.countP isHeapAlloc

/-- Iterate `k` calls of `FutureAllocator::grow(1)` (all mallocs succeeding)
from a state, returning the final state and the total number of heap blocks
acquired. -/
def futureGrow1s (num den : Nat) (s : AState Unit) : Nat → AState Unit × Nat
  | 0 => (s, 0)
  | Nat.succ k =>
      let p := futureGrow1s num den s k
      let r := futureGrow true num den () p.1 1
      (r.state, p.2 + heapAllocs r.events)

/-- Iterate `k` calls of `StdAllocator::grow(1)` (all mallocs succeeding)
from a state, returning the final state and the total number of heap blocks
acquired. -/
def stdGrow1s (s : AState Unit) : Nat → AState Unit × Nat
  | 0 => (s, 0)
  | Nat.succ k =>
      let p := stdGrow1s s k
      let r := stdGrow true () p.1 1
      (r.state, p.2 + heapAllocs r.events)

end LibqiAlloc

namespace LibqiAlloc

variable {T : Type} {α : Type}

lemma constructIdxs_append (a b : List (Event T)) :
    constructIdxs (a ++ b) = constructIdxs a ++ constructIdxs b :=
  List.filterMap_append a b constructIdx

lemma destructIdxs_append (a b : List (Event T)) :
    destructIdxs (a ++ b) = destructIdxs a ++ destructIdxs b :=
  List.filterMap_append a b destructIdx

lemma constructIdxs_map_construct (l : List α) (f : α → Nat) (g : α → T) :
    constructIdxs (l.map fun a => Event.construct (f a) (g a)) = l.map f := by
  induction l with
  | nil => rfl
  | cons a t ih =>
      simp only [List.map_cons, constructIdxs, List.filterMap_cons, constructIdx]
      simpa [constructIdxs] using ih

lemma constructIdxs_map_destruct (l : List Nat) :
    constructIdxs ((l.map Event.destruct : List (Event T))) = ([] : List Nat) := by
  induction l with
  | nil => rfl
  | cons a t ih =>
      simp only [List.map_cons, constructIdxs, List.filterMap_cons, constructIdx]
      simpa [constructIdxs] using ih

lemma destructIdxs_map_destruct (l : List Nat) :
    destructIdxs ((l.map Event.destruct : List (Event T))) = l := by
  induction l with
  | nil => rfl
  | cons a t ih =>
      simp only [List.map_cons, destructIdxs, List.filterMap_cons, destructIdx]
      simpa [destructIdxs] using ih

lemma destructIdxs_map_construct (l : List α) (f : α → Nat) (g : α → T) :
    destructIdxs (l.map fun a => Event.construct (f a) (g a)) = [] := by
  induction l with
  | nil => rfl
  | cons a t ih =>
      simp only [List.map_cons, destructIdxs, List.filterMap_cons, destructIdx]
      simpa [destructIdxs] using ih

lemma heapAllocs_append (a b : List (Event T)) :
    heapAllocs (a ++ b) = heapAllocs a + heapAllocs b :=
  List.countP_append _ a b

lemma heapAllocs_map_construct (l : List α) (f : α → Nat) (g : α → T) :
    heapAllocs (l.map fun a => Event.construct (f a) (g a)) = 0 := by
  induction l with
  | nil => rfl
  | cons a t ih => simp [heapAllocs, List.countP_cons, isHeapAlloc]

lemma heapAllocs_map_destruct (l : List Nat) :
    heapAllocs ((l.map Event.destruct : List (Event T))) = 0 := by
  induction l with
  | nil => rfl
  | cons a t ih => simp [heapAllocs, List.countP_cons, isHeapAlloc]

end LibqiAlloc

namespace LibqiAlloc

lemma pairwise_lt_range_append_shift (L cnt k : Nat) (h : L ≤ cnt) :
    List.Pairwise (fun a b => a < b)
      (List.range L ++ (List.range k).map fun i => cnt + i) := by
  rw [List.pairwise_append]
  refine ⟨List.pairwise_lt_range L, ?_, ?_⟩
  · rw [List.pairwise_map]
    exact (List.pairwise_lt_range k).imp (fun hab => by omega)
  · intro a ha b hb
    rw [List.mem_range] at ha
    rw [List.mem_map] at hb
    obtain ⟨i, hi, rfl⟩ := hb
    omega

lemma pairwise_gt_countdown (c m : Nat) (hm : m ≤ c) :
    List.Pairwise (fun a b => a > b)
      ((List.range m).map fun i => c - 1 - i) := by
  rw [List.pairwise_map]
  refine List.Pairwise.imp_of_mem ?_ (List.pairwise_lt_range m)
  intro a b ha hb hab
  rw [List.mem_range] at ha hb
  omega

end LibqiAlloc

namespace LibqiAlloc

variable {T : Type}

/-- Claim C1 (code-bug evidence): the claim says that in the exact-fit
strategy `capacity() == count()` holds at all times, in particular that
`capacity()` returns `n` after `allocate(n)`.  The code violates this:
`StdAllocator::allocate` sets `_count` but never writes `_cap`, so after a
successful `allocate(1)` on a fresh exact-fit allocator, `count()` is 1 while
`capacity()` is still 0. -/
theorem C1_exact_fit_capacity_code_bug :
    (stdAllocate false true (stdInit Unit) 1 ()).out = Out.ok ∧
    (stdAllocate false true (stdInit Unit) 1 ()).state.count = 1 ∧
    (stdAllocate false true (stdInit Unit) 1 ()).state.cap = 0 := by decide

/-- Claim C2, counterexample: with multiplier 3/2, a successful
`FutureAllocator::allocate(1)` leaves `capacity() = 1`, not
`ceil(3/2 * 1) = 2` as the claim states — the C++ float-to-`Size` conversion
truncates the product instead of rounding it up. -/
theorem C2_counterexample :
    (futureAllocateWith true 3 2 (stdInit Unit) 1 (fun _ => ())).out = Out.ok ∧
    (futureAllocateWith true 3 2 (stdInit Unit) 1 (fun _ => ())).state.cap = 1 ∧
    (3 * 1 + 2 - 1) / 2 = 2 := by decide

/-- Claim C2 as amended: in the amortized strategy with multiplier
`num/den`, `allocate(n)` reserves `capacity = floor(m * n)` (truncation, not
ceiling) while placement-constructing exactly the slots `0..n-1`; and
`grow(k)` acquires a new heap block if and only if `count + k` exceeds the
current capacity, in which case the new capacity is `floor(m * (count + k))`,
and otherwise the existing block is reused: pointer and capacity unchanged
and no heap acquisition. -/
theorem C2_amended (num den n k : Nat) (d : T) (f : Nat → T) (s : AState T)
    (mOk : Bool) :
    ((futureAllocateWith true num den s n f).out = Out.ok ∧
     (futureAllocateWith true num den s n f).state.cap = capOf num den n ∧
     (futureAllocateWith true num den s n f).state.count = n ∧
     constructIdxs (futureAllocateWith true num den s n f).events =
       List.range n) ∧
    (s.count + k > s.cap →
       (futureGrow true num den d s k).out = Out.ok ∧
       (futureGrow true num den d s k).state.cap =
         capOf num den (s.count + k) ∧
       heapAllocs (futureGrow true num den d s k).events = 1) ∧
    (s.count + k ≤ s.cap →
       (futureGrow mOk num den d s k).out = Out.ok ∧
       (futureGrow mOk num den d s k).state.ptr = s.ptr ∧
       (futureGrow mOk num den d s k).state.cap = s.cap ∧
       heapAllocs (futureGrow mOk num den d s k).events = 0) := by
  refine ⟨?_, ?_, ?_⟩
  · by_cases hn : n = 0
    · subst hn
      simp [futureAllocateWith, constructIdxs]
    · simp [futureAllocateWith, if_neg hn, constructIdxs, List.filterMap_cons,
        constructIdx]
      simp [Function.comp_def, constructIdx, List.filterMap_some]
  · intro h
    have h' : s.cap < s.count + k := h
    simp only [futureGrow, gt_iff_lt]
    rw [if_pos h']
    simp [heapAllocs, List.countP_cons, List.countP_append, isHeapAlloc,
      heapAllocs_map_construct, heapAllocs_map_destruct]
  · intro h
    have hng : ¬ (s.cap < s.count + k) := by omega
    simp only [futureGrow, gt_iff_lt]
    rw [if_neg hng]
    simp [heapAllocs_map_construct]

end LibqiAlloc

namespace LibqiAlloc

variable {T : Type} {α : Type}

lemma constructIdxs_cons_heapAlloc (i : Nat) (es : List (Event T)) :
    constructIdxs (Event.heapAlloc i :: es) = constructIdxs es := by
  simp [constructIdxs, List.filterMap_cons, constructIdx]

lemma constructIdxs_heapFree :
    constructIdxs ([Event.heapFree] : List (Event T)) = [] := rfl

lemma destructIdxs_heapFree :
    destructIdxs ([Event.heapFree] : List (Event T)) = [] := rfl

lemma constructIdxs_enum_construct (l : List T) :
    constructIdxs (l.enum.map fun p => Event.construct p.1 p.2) =
      List.range l.length := by
  have h := constructIdxs_map_construct l.enum Prod.fst Prod.snd
  rw [h, List.enum_map_fst]

lemma constructIdxs_range_construct (n : Nat) (g : Nat → T) :
    constructIdxs ((List.range n).map fun i => Event.construct i (g i)) =
      List.range n := by
  simpa using constructIdxs_map_construct (List.range n) (fun i => i) g

lemma destructIdxs_map_destruct_comp (l : List α) (f : α → Nat) :
    destructIdxs ((l.map fun a => Event.destruct (f a) : List (Event T))) =
      l.map f := by
  induction l with
  | nil => rfl
  | cons a t ih =>
      simp only [List.map_cons, destructIdxs, List.filterMap_cons, destructIdx]
      simpa [destructIdxs] using ih

/-- Witness for `C2_amended` at multiplier 3/2: after `allocate(2)`
(capacity 3), `grow(2)` exceeds the capacity and acquires one block, while
`grow(1)` fits and acquires none. -/
theorem C2_amended_witness :
    ((futureAllocateWith true 3 2 (stdInit Unit) 2 (fun _ => ())).state.cap =
       capOf 3 2 2) ∧
    (heapAllocs (futureGrow true 3 2 ()
       ((futureAllocateWith true 3 2 (stdInit Unit) 2
          (fun _ => ())).state) 2).events = 1) ∧
    (heapAllocs (futureGrow true 3 2 ()
       ((futureAllocateWith true 3 2 (stdInit Unit) 2
          (fun _ => ())).state) 1).events = 0) := by
  refine ⟨(C2_amended 3 2 2 0 () (fun _ => ()) (stdInit Unit) true).1.2.1,
    ((C2_amended 3 2 2 2 () (fun _ => ())
       ((futureAllocateWith true 3 2 (stdInit Unit) 2
          (fun _ => ())).state) true).2.1 (by decide)).2.2,
    ((C2_amended 3 2 2 1 () (fun _ => ())
       ((futureAllocateWith true 3 2 (stdInit Unit) 2
          (fun _ => ())).state) true).2.2 (by decide)).2.2.2⟩

/-- Claim C3, counterexample: on a fresh amortized allocator with
multiplier 3/2, a failing `allocate(2)` throws `AllocException` yet leaves
`capacity() = 3` where it was 0 before the call — observable partial
mutation, because `_cap` is written before the heap request. -/
theorem C3_counterexample :
    (futureAllocateWith false 3 2 (stdInit Unit) 2 (fun _ => ())).out =
      Out.fail ∧
    (futureAllocateWith false 3 2 (stdInit Unit) 2 (fun _ => ())).state.cap
      = 3 ∧
    (stdInit Unit).cap = 0 := by decide

/-- Claim C3 as amended: when an `allocate` or `grow` call fails with
`AllocationFailure`, `count()`, the raw pointer and all live element values
are exactly as before the call in every path, and `capacity()` is unchanged
as well in every path except `FutureAllocator::allocate`, which assigns
`_cap = multiplier * count` before attempting the heap request and therefore
leaves `capacity() = floor(m * n)` behind after the failure. -/
theorem C3_amended (debug : Bool) (num den n k : Nat) (d : T) (f : Nat → T)
    (s : AState T) :
    ((stdAllocateWith debug false s n f).out = Out.fail →
       (stdAllocateWith debug false s n f).state = s) ∧
    ((stdGrow false d s k).out = Out.fail ∧ (stdGrow false d s k).state = s ∧
       (stdGrow false d s k).events = []) ∧
    ((futureGrow false num den d s k).out = Out.fail →
       (futureGrow false num den d s k).state = s) ∧
    ((futureAllocateWith false num den s n f).out = Out.fail →
       (futureAllocateWith false num den s n f).state.count = s.count ∧
       (futureAllocateWith false num den s n f).state.ptr = s.ptr ∧
       (futureAllocateWith false num den s n f).state.mem = s.mem ∧
       (futureAllocateWith false num den s n f).state.cap = capOf num den n)
    := by
  refine ⟨?_, ?_, ?_, ?_⟩
  · simp only [stdAllocateWith]
    split_ifs <;> simp
  · simp [stdGrow]
  · simp only [futureGrow]
    split_ifs <;> simp
  · simp only [futureAllocateWith]
    split_ifs <;> simp

/-- Witness for `C3_amended`: concrete failing calls on a fresh state, with
the exact-fit paths left fully unchanged and the amortized allocate path
showing the mutated capacity. -/
theorem C3_amended_witness :
    ((stdAllocateWith false false (stdInit Unit) 1 (fun _ => ())).state =
       stdInit Unit) ∧
    ((stdGrow false () (stdInit Unit) 1).out = Out.fail) ∧
    ((futureGrow false 3 2 () (stdInit Unit) 1).state = stdInit Unit) ∧
    ((futureAllocateWith false 3 2 (stdInit Unit) 1 (fun _ => ())).state.cap =
       capOf 3 2 1) := by
  refine ⟨(C3_amended false 3 2 1 1 () (fun _ => ()) (stdInit Unit)).1
      (by decide),
    (C3_amended false 3 2 1 1 () (fun _ => ()) (stdInit Unit)).2.1.1,
    (C3_amended false 3 2 1 1 () (fun _ => ()) (stdInit Unit)).2.2.1
      (by decide),
    ((C3_amended false 3 2 1 1 () (fun _ => ()) (stdInit Unit)).2.2.2
      (by decide)).2.2.2⟩

/-- Claim C4, counterexample: `free()` on a buffer with two live elements
emits its destructor calls at indices `[0, 1]` — strictly low-to-high, not
the strictly high-to-low order the claim asserts for every free call. -/
theorem C4_counterexample :
    destructIdxs (stdFree false
        ((stdAllocate false true (stdInit Unit) 2 ()).state)).events =
      [0, 1] ∧
    ¬ List.Pairwise (fun a b => a > b) ([0, 1] : List Nat) := by decide

/-- Claim C4 as amended: every grow call (either strategy, any outcome)
performs its placement constructions in strictly increasing index order, and
every shrink destructs in strictly decreasing index order, as claimed; but
`free()` (shared by both strategies via `StdAllocator::destruct`) destructs
the live elements in strictly increasing index order, not high-to-low. -/
theorem C4_amended (mOk debug : Bool) (num den k c : Nat) (d : T)
    (s : AState T) :
    List.Pairwise (fun a b => a < b)
      (constructIdxs (stdGrow mOk d s k).events) ∧
    List.Pairwise (fun a b => a < b)
      (constructIdxs (futureGrow mOk num den d s k).events) ∧
    List.Pairwise (fun a b => a > b)
      (destructIdxs (stdShrink s c).events) ∧
    List.Pairwise (fun a b => a < b)
      (destructIdxs (stdFree debug s).events) := by
  refine ⟨?_, ?_, ?_, ?_⟩
  · cases mOk with
    | false => simp [stdGrow, constructIdxs]
    | true =>
        simp only [stdGrow]
        rw [if_pos trivial]
        simp only [constructIdxs_append, constructIdxs_cons_heapAlloc,
          constructIdxs_enum_construct, constructIdxs_map_destruct,
          constructIdxs_heapFree, constructIdxs_map_construct,
          List.enum_map_fst, List.append_nil, List.nil_append]
        exact pairwise_lt_range_append_shift (List.take s.count s.mem).length
          s.count k (by rw [List.length_take]; exact min_le_left _ _)
  · by_cases hb : s.cap < s.count + k
    · cases mOk with
      | false =>
          simp only [futureGrow, gt_iff_lt]
          rw [if_pos hb]
          simp [constructIdxs]
      | true =>
          simp only [futureGrow, gt_iff_lt]
          rw [if_pos hb, if_pos trivial]
          simp only [constructIdxs_append, constructIdxs_cons_heapAlloc,
            constructIdxs_enum_construct, constructIdxs_map_destruct,
            constructIdxs_heapFree, constructIdxs_map_construct,
            List.enum_map_fst, List.append_nil, List.nil_append]
          exact pairwise_lt_range_append_shift (List.take s.count s.mem).length
            s.count k (by rw [List.length_take]; exact min_le_left _ _)
    · simp only [futureGrow, gt_iff_lt]
      rw [if_neg hb]
      simp only [constructIdxs_map_construct]
      have h0 := pairwise_lt_range_append_shift 0 s.count k (by omega)
      simpa using h0
  · simp only [stdShrink]
    split_ifs with h
    · simp only [destructIdxs_map_destruct_comp]
      exact pairwise_gt_countdown _ _ (by omega)
    · simp [destructIdxs]
  · simp only [stdFree]
    split_ifs
    · simp [destructIdxs]
    all_goals
      simp only [destructIdxs_append, destructIdxs_map_destruct,
        destructIdxs_heapFree, List.append_nil]
      exact List.pairwise_lt_range _

end LibqiAlloc

namespace LibqiAlloc

variable {T : Type}

/-- Claim C5, counterexample: shrinking a debug-build buffer with
`count() = 1` by 2 — a contract violation the claim says must halt — does
not halt: `_shrink` contains no `CHI_ASSERT`, the unsigned `_count -
decrement` wraps around, the destruction loop never runs, and the call
silently returns with the state unchanged. -/
theorem C5_counterexample :
    (stdShrink ((stdAllocate true true (stdInit Unit) 1 ()).state) 2).out =
      Out.ok ∧
    (stdShrink ((stdAllocate true true (stdInit Unit) 1 ()).state) 2).state =
      (stdAllocate true true (stdInit Unit) 1 ()).state := by decide

/-- Claim C5 as amended: in debug builds, allocating twice through
`StdAllocator::allocate` and calling `free` twice do halt with a diagnostic;
but shrinking by more than `count` is silently a no-op (no check exists),
`FutureAllocator::allocate` performs no double-allocate check at all, and the
constructor's check only halts for a multiplier strictly below 1.0, so the
violating multiplier `m = 1.0` passes. -/
theorem C5_amended (num den n d2 id : Nat) (f : Nat → T) (s : AState T)
    (mOk : Bool) :
    ((stdAllocateWith true mOk { s with ptr := PtrVal.block id } n f).out =
       Out.halted) ∧
    ((stdFree true { s with ptr := PtrVal.sentinel }).out = Out.halted) ∧
    (num < den → futureInit true num den = Out.halted) ∧
    (futureInit true den den = Out.ok) ∧
    (s.count < d2 → d2 ≤ 2 ^ 64 → s.count < 2 ^ 64 →
       (stdShrink s d2).out = Out.ok ∧ (stdShrink s d2).state = s ∧
       (stdShrink s d2).events = []) ∧
    ((futureAllocateWith mOk num den { s with ptr := PtrVal.block id } n f).out
       ≠ Out.halted) := by
  refine ⟨?_, ?_, ?_, ?_, ?_, ?_⟩
  · simp [stdAllocateWith]
  · simp [stdFree]
  · intro h
    simp [futureInit, h]
  · simp [futureInit]
  · intro h1 h2 h3
    have hmod : (s.count + 2 ^ 64 - d2) % 2 ^ 64 = s.count + 2 ^ 64 - d2 :=
      Nat.mod_eq_of_lt (by omega)
    have hng : ¬ ((s.count + 2 ^ 64 - d2) % 2 ^ 64 < s.count) := by
      rw [hmod]
      omega
    simp only [stdShrink]
    rw [if_neg hng]
    exact ⟨rfl, rfl, rfl⟩
  · simp only [futureAllocateWith]
    split_ifs <;> simp

/-- Witness for `C5_amended` at concrete inputs: multiplier 1/2 halts at
construction, multiplier 2/2 = 1.0 does not, over-shrinking a fresh buffer
returns normally, and a double allocate through the amortized overload does
not halt. -/
theorem C5_amended_witness :
    ((stdAllocateWith true true
        { stdInit Unit with ptr := PtrVal.block 7 } 1 (fun _ => ())).out =
      Out.halted) ∧
    (futureInit true 1 2 = Out.halted) ∧
    (futureInit true 2 2 = Out.ok) ∧
    ((stdShrink (stdInit Unit) 2).out = Out.ok) ∧
    ((futureAllocateWith true 1 2
        { stdInit Unit with ptr := PtrVal.block 7 } 1 (fun _ => ())).out ≠
      Out.halted) := by
  refine ⟨(C5_amended 1 2 1 2 7 (fun _ => ()) (stdInit Unit) true).1,
    (C5_amended 1 2 1 2 7 (fun _ => ()) (stdInit Unit) true).2.2.1
      (by decide),
    (C5_amended 1 2 1 2 7 (fun _ => ()) (stdInit Unit) true).2.2.2.1,
    ((C5_amended 1 2 1 2 7 (fun _ => ()) (stdInit Unit) true).2.2.2.2.1
      (by decide) (by decide) (by decide)).1,
    (C5_amended 1 2 1 2 7 (fun _ => ()) (stdInit Unit) true).2.2.2.2.2⟩

/-- Claim C6 (confirmed): in either strategy, after `allocate(n)` followed
by `grow(k)` (both succeeding), `count() = n + k`, the elements at indices
`[0, n)` hold the same values they held before the grow, and the elements at
indices `[n, n+k)` each equal the default-constructed value `d`. -/
theorem C6_allocate_then_grow (n k num den : Nat) (d : T) :
    ((stdAllocate false true (stdInit T) n d).out = Out.ok ∧
     (stdAllocate false true (stdInit T) n d).state.mem =
       List.replicate n d ∧
     (stdGrow true d (stdAllocate false true (stdInit T) n d).state k).out =
       Out.ok ∧
     (stdGrow true d (stdAllocate false true (stdInit T) n d).state k).state.count
       = n + k ∧
     (stdGrow true d (stdAllocate false true (stdInit T) n d).state k).state.mem
       = List.replicate n d ++ List.replicate k d) ∧
    ((futureAllocateWith true num den (stdInit T) n (fun _ => d)).out =
       Out.ok ∧
     (futureAllocateWith true num den (stdInit T) n (fun _ => d)).state.mem =
       List.replicate n d ∧
     (futureGrow true num den d
        (futureAllocateWith true num den (stdInit T) n (fun _ => d)).state
        k).out = Out.ok ∧
     (futureGrow true num den d
        (futureAllocateWith true num den (stdInit T) n (fun _ => d)).state
        k).state.count = n + k ∧
     (futureGrow true num den d
        (futureAllocateWith true num den (stdInit T) n (fun _ => d)).state
        k).state.mem = List.replicate n d ++ List.replicate k d) := by
  constructor
  · by_cases hn : n = 0
    · subst hn
      simp [stdAllocate, stdAllocateWith, stdGrow, stdInit]
    · simp [stdAllocate, stdAllocateWith, hn, stdGrow, List.map_const',
        List.take_replicate]
  · by_cases hn : n = 0
    · subst hn
      simp only [futureAllocateWith, futureGrow]
      split_ifs <;> simp_all [List.map_const', List.take_replicate, capOf]
    · simp only [futureAllocateWith, futureGrow]
      split_ifs <;> simp_all [List.map_const', List.take_replicate, capOf]

end LibqiAlloc

namespace LibqiAlloc

variable {T : Type}

/-- Claim C7 (confirmed): for every state and every `c`, `resize(c)` is
the very same call as `grow(c - count)` when `c > count` and as
`shrink(count - c)` when `c < count`, and when `c = count` it returns
normally with the state untouched and no events, in both strategies. -/
theorem C7_resize_equiv (c num den : Nat) (d : T) (s : AState T)
    (mOk : Bool) :
    (c > s.count →
       stdResize mOk d s c = stdGrow mOk d s (c - s.count) ∧
       futureResize mOk num den d s c =
         futureGrow mOk num den d s (c - s.count)) ∧
    (c < s.count →
       stdResize mOk d s c = stdShrink s (s.count - c) ∧
       futureResize mOk num den d s c = stdShrink s (s.count - c)) ∧
    (c = s.count →
       stdResize mOk d s c = ⟨Out.ok, s, []⟩ ∧
       futureResize mOk num den d s c = ⟨Out.ok, s, []⟩) := by
  refine ⟨fun h => ?_, fun h => ?_, fun h => ?_⟩
  · constructor <;> simp [stdResize, futureResize, h]
  · constructor <;>
      simp [stdResize, futureResize, h, show ¬ c > s.count by omega]
  · subst h
    constructor <;> simp [stdResize, futureResize]

/-- Witness for `C7_resize_equiv`: the three regimes at concrete inputs
(grow from count 0 to 1, shrink from count 1 to 0, no-op at count 0). -/
theorem C7_resize_equiv_witness :
    (stdResize true () (stdInit Unit) 1 = stdGrow true () (stdInit Unit) 1) ∧
    (stdResize true ()
        ((stdAllocate false true (stdInit Unit) 1 ()).state) 0 =
      stdShrink ((stdAllocate false true (stdInit Unit) 1 ()).state) 1) ∧
    (stdResize true () (stdInit Unit) 0 = ⟨Out.ok, stdInit Unit, []⟩) := by
  refine ⟨?_, ?_, ?_⟩
  · have h := (C7_resize_equiv 1 3 2 () (stdInit Unit) true).1 (by decide)
    simpa using h.1
  · have h := (C7_resize_equiv 0 3 2 ()
      ((stdAllocate false true (stdInit Unit) 1 ()).state) true).2.1
      (by decide)
    simpa using h.1
  · have h := (C7_resize_equiv 0 3 2 () (stdInit Unit) true).2.2 (by decide)
    exact h.1

lemma shrink_k_after (g : AState T) (k c : Nat) (m : List T) (d : T)
    (hcount : g.count = c + k) (hmem : g.mem = m ++ List.replicate k d)
    (hm : m.length = c) (h64 : c < 2 ^ 64) :
    (stdShrink g k).out = Out.ok ∧ (stdShrink g k).state.count = c ∧
    (stdShrink g k).state.mem = m ∧ (stdShrink g k).state.ptr = g.ptr := by
  have hmod : (g.count + 2 ^ 64 - k) % 2 ^ 64 = c := by
    rw [hcount, show c + k + 2 ^ 64 - k = c + 2 ^ 64 by omega,
      Nat.add_mod_right, Nat.mod_eq_of_lt h64]
  by_cases hk : k = 0
  · subst hk
    have hng : ¬ ((g.count + 2 ^ 64 - 0) % 2 ^ 64 < g.count) := by
      rw [hmod, hcount]
      omega
    simp only [stdShrink]
    rw [if_neg hng]
    refine ⟨rfl, by show g.count = c; omega, ?_, rfl⟩
    show g.mem = m
    simpa using hmem
  · have hlt : (g.count + 2 ^ 64 - k) % 2 ^ 64 < g.count := by
      rw [hmod, hcount]
      omega
    simp only [stdShrink]
    rw [if_pos hlt]
    refine ⟨rfl, hmod, ?_, rfl⟩
    simp only [hmod, hmem]
    rw [← hm, List.take_left]

/-- Claim C8 (confirmed): from any allocated buffer whose `mem` holds its
`count` live elements, a successful `grow(k)` immediately followed by
`shrink(k)` returns `count()` to its pre-grow value and restores the
surviving elements `[0, count)` exactly; a subsequent `free()` then emits
exactly the destructor calls at indices `0..count-1`, a duplicate-free list,
so no element is destructed twice.  Holds in both strategies. -/
theorem C8_grow_shrink_free (k num den : Nat) (d : T) (s : AState T)
    (hwf : s.mem.length = s.count) (h64 : s.count < 2 ^ 64) :
    ((stdGrow true d s k).out = Out.ok ∧
     (stdShrink (stdGrow true d s k).state k).state.count = s.count ∧
     (stdShrink (stdGrow true d s k).state k).state.mem = s.mem ∧
     destructIdxs (stdFree false
         (stdShrink (stdGrow true d s k).state k).state).events =
       List.range s.count) ∧
    ((futureGrow true num den d s k).out = Out.ok ∧
     (stdShrink (futureGrow true num den d s k).state k).state.count =
       s.count ∧
     (stdShrink (futureGrow true num den d s k).state k).state.mem = s.mem ∧
     destructIdxs (stdFree false
         (stdShrink (futureGrow true num den d s k).state k).state).events =
       List.range s.count) ∧
    (List.range s.count).Nodup := by
  have htake : s.mem.take s.count = s.mem := by
    rw [← hwf]
    exact List.take_length s.mem
  have hgs : (stdGrow true d s k).state.count = s.count + k ∧
      (stdGrow true d s k).state.mem = s.mem ++ List.replicate k d := by
    simp only [stdGrow]
    rw [if_pos trivial]
    exact ⟨rfl, by simp [htake]⟩
  have hgf : (futureGrow true num den d s k).state.count = s.count + k ∧
      (futureGrow true num den d s k).state.mem =
        s.mem ++ List.replicate k d := by
    simp only [futureGrow]
    split_ifs with h1
    · exact ⟨rfl, by simp [htake]⟩
    · exact ⟨rfl, rfl⟩
  have hss := shrink_k_after (stdGrow true d s k).state k s.count s.mem d
    hgs.1 hgs.2 hwf h64
  have hsf := shrink_k_after (futureGrow true num den d s k).state k s.count
    s.mem d hgf.1 hgf.2 hwf h64
  have hfree : ∀ t : AState T, t.count = s.count →
      destructIdxs (stdFree false t).events = List.range s.count := by
    intro t ht
    simp only [stdFree]
    rw [if_neg (by simp)]
    simp [destructIdxs_append, destructIdxs_map_destruct,
      destructIdxs_heapFree, ht]
  refine ⟨⟨?_, hss.2.1, hss.2.2.1, hfree _ hss.2.1⟩,
    ⟨?_, hsf.2.1, hsf.2.2.1, hfree _ hsf.2.1⟩, List.nodup_range s.count⟩
  · simp only [stdGrow]
    rw [if_pos trivial]
  · simp only [futureGrow]
    split_ifs <;> simp_all

/-- Witness for `C8_grow_shrink_free`: `allocate(2)`, `grow(3)`,
`shrink(3)`, then `free()` destructs exactly indices 0 and 1. -/
theorem C8_grow_shrink_free_witness :
    (stdShrink (stdGrow true ()
        ((stdAllocate false true (stdInit Unit) 2 ()).state) 3).state
        3).state.count =
      ((stdAllocate false true (stdInit Unit) 2 ()).state).count ∧
    destructIdxs (stdFree false
        (stdShrink (stdGrow true ()
          ((stdAllocate false true (stdInit Unit) 2 ()).state) 3).state
          3).state).events =
      List.range ((stdAllocate false true (stdInit Unit) 2 ()).state).count
    := by
  have h := C8_grow_shrink_free 3 3 2 ()
    ((stdAllocate false true (stdInit Unit) 2 ()).state) (by decide)
    (by decide)
  exact ⟨h.1.2.1, h.1.2.2.2⟩

/-- Claim C9 (confirmed): starting from `allocate(0)` with multiplier 1.5,
ten successive `grow(1)` calls make the amortized allocator acquire 4 heap
blocks while the exact-fit allocator acquires 10, one per call; 4 < 10. -/
theorem C9_amortized_fewer_reallocs :
    (futureGrow1s 3 2
        (futureAllocateWith true 3 2 (stdInit Unit) 0 (fun _ => ())).state
        10).2 = 4 ∧
    (stdGrow1s (stdAllocate false true (stdInit Unit) 0 ()).state 10).2 =
      10 ∧
    (4 : Nat) < 10 := by decide

/-- Claim C10 (confirmed): `free()` writes neither `_count` nor `_cap`, so
`count()` and `capacity()` still report their pre-free values afterwards —
in particular a freed nonempty buffer does not report `count() = 0` — and in
optimized builds (`debug = false`) the stored pointer is unchanged too. -/
theorem C10_free_preserves (debug : Bool) (s : AState T) :
    (stdFree debug s).state.count = s.count ∧
    (stdFree debug s).state.cap = s.cap ∧
    (debug = false → (stdFree debug s).state.ptr = s.ptr) ∧
    (s.count ≠ 0 → (stdFree debug s).state.count ≠ 0) := by
  simp only [stdFree]
  split_ifs <;> simp_all

/-- Witness for `C10_free_preserves`: freeing an optimized-build buffer of
two elements keeps `count()`, the pointer, and `count() ≠ 0`. -/
theorem C10_free_preserves_witness :
    (stdFree false
        ((stdAllocate false true (stdInit Unit) 2 ()).state)).state.count =
      ((stdAllocate false true (stdInit Unit) 2 ()).state).count ∧
    (stdFree false
        ((stdAllocate false true (stdInit Unit) 2 ()).state)).state.ptr =
      ((stdAllocate false true (stdInit Unit) 2 ()).state).ptr ∧
    (stdFree false
        ((stdAllocate false true (stdInit Unit) 2 ()).state)).state.count ≠
      0 := by
  have h := C10_free_preserves false
    ((stdAllocate false true (stdInit Unit) 2 ()).state)
  exact ⟨h.1, h.2.2.1 rfl, h.2.2.2 (by decide)⟩

end LibqiAlloc
